import Mathlib

/-!
Verification of the PINT pulsar-timing repository against its
natural-language specification.

The development shallowly embeds the Python sources:

* `src/pint/models/stand_alone_psr_binaries/DDGR_model.py`
  (`_solve_kepler`, `DDGRmodel._updatePK`, the post-Keplerian
  derivative formulas and dispatchers, and the ignored-parameter
  setters);
* `src/pint/gridutils.py` (`_grid_doonefit`, `grid_chisq_mp`,
  `grid_chisq`);
* `src/pint/models/binary_ddk.py` (`BinaryDDK.alternative_solutions`).

Floating-point quantities are modelled as real numbers; astropy
`Quantity` values are modelled by their SI magnitudes, so `.decompose()`
and `.to(u.s)` are the identity.  Per-TOA dense arrays are modelled as
lists where array length matters and as a single per-TOA scalar where a
formula is applied element-wise.  The Python `while` loop of
`_solve_kepler` is embedded with explicit fuel.
-/

namespace PINT

/-- Newton's gravitational constant, the SI value used by
`astropy.constants.G` (CODATA: 6.6743e-11 m^3 kg^-1 s^-2). -/
noncomputable def Gconst : ℝ := 66743 / 10 ^ 15

/-- Speed of light in m/s, the SI value of `astropy.constants.c`. -/
noncomputable def cc : ℝ := 299792458

lemma Gconst_pos : 0 < Gconst := by norm_num [Gconst]

lemma cc_pos : 0 < cc := by norm_num [cc]

/-- The non-relativistic semi-major axis computed at the top of
`_solve_kepler`: `arr0 = (c.G * MTOT / n**2) ** (1.0 / 3)` with
`MTOT = M1 + M2`. -/
noncomputable def arr0v (M1 M2 n : ℝ) : ℝ :=
  (Gconst * (M1 + M2) / n ^ 2) ^ ((1 : ℝ) / 3)

/-- One step of the relativistic Kepler fixed-point map of
`_solve_kepler` (Taylor & Weisberg 1989, Eqn. 15):
`arr0 * (1 + (M1*M2/MTOT**2 - 9) * (c.G*MTOT/(2*arr*c.c**2))) ** (2.0/3)`
with `MTOT = M1 + M2`. -/
noncomputable def keplerF (M1 M2 arr0 arr : ℝ) : ℝ :=
  arr0 *
    (1 + (M1 * M2 / (M1 + M2) ^ 2 - 9) *
      (Gconst * (M1 + M2) / (2 * arr * cc ^ 2))) ^ ((2 : ℝ) / 3)

/-- The `while` loop of `_solve_kepler`, embedded with explicit fuel.
State is `(arr, arr_old)`.  The loop body of the source is
`arr_old = arr; ar = arr0 * (...) ** (2.0/3)` — note that it assigns the
freshly computed step to the unused local `ar`, not to `arr`, so the
next state is `(arr, arr)`. -/
noncomputable def solveKeplerLoop (M1 M2 arr0 ARTOL : ℝ) :
    ℕ → ℝ → ℝ → Option ℝ
  | 0, _, _ => none
  | fuel + 1, arr, arr_old =>
    if |(arr - arr_old) / arr| > ARTOL then
      let ar := keplerF M1 M2 arr0 arr
      solveKeplerLoop M1 M2 arr0 ARTOL fuel arr arr
    else some arr

/-- Embedding of `_solve_kepler(M1, M2, n, ARTOL)`.  Returns
`(arr0, arr)`; the second component is `none` only when the fuel for
the `while` loop runs out. -/
noncomputable def solve_kepler (M1 M2 n ARTOL : ℝ) (fuel : ℕ) :
    ℝ × Option ℝ :=
  let arr0 := arr0v M1 M2 n
  let arr := arr0
  let arr_old := arr
  let arr := keplerF M1 M2 arr0 arr
  (arr0, solveKeplerLoop M1 M2 arr0 ARTOL fuel arr arr_old)

/-- Because the loop body of `_solve_kepler` assigns to the dead local
`ar` instead of `arr`, the loop makes no progress: with any tolerance
`ARTOL ≥ 0` and at least two units of fuel the function returns after at
most one pass through the loop body, with `arr` equal to a single
fixed-point step `keplerF` applied to `arr0`. -/
lemma solve_kepler_eq (M1 M2 n ARTOL : ℝ) (h : 0 ≤ ARTOL) (fuel : ℕ)
    (hf : 2 ≤ fuel) :
    solve_kepler M1 M2 n ARTOL fuel =
      (arr0v M1 M2 n,
        some (keplerF M1 M2 (arr0v M1 M2 n) (arr0v M1 M2 n))) := by
  obtain ⟨k, rfl⟩ : ∃ k, fuel = k + 2 := ⟨fuel - 2, by omega⟩
  unfold solve_kepler
  simp only [solveKeplerLoop]
  split_ifs with h1 h2
  · exact absurd h2 (by simp [sub_self, abs_zero]; exact h)
  · rfl
  · rfl

/-! ## The DDGR model state and `_updatePK` -/

/-- The parameters of a `DDGRmodel` that `_updatePK` and the derivative
formulas read.  `PB` is in seconds (the source converts with
`self.PB.to(u.s)`); masses are in kg and `A1` in m (SI magnitudes).
The fields `ecc` and `a1` stand for the base-class methods
`self.ecc()` and `self.a1()` of `DDmodel`/`PSR_BINARY` (defined in
`DD_model.py`/`binary_generic.py`, which are not among the given
sources); they are modelled as given per-TOA values, and coincide with
the parameters `ECC` and `A1` when `EDOT = A1DOT = 0`. -/
structure DDGRState where
  PB : ℝ
  ECC : ℝ
  M2 : ℝ
  MTOT : ℝ
  A1 : ℝ
  XOMDOT : ℝ
  ecc : ℝ
  a1 : ℝ

/-- The quantities `_updatePK` stores on the model:
`_M1, _n, _arr, _ar, _SINI, _GAMMA, _PBDOT, _OMDOT, _k, _DR, _er,
_DTH, _eth` (leading underscores dropped). -/
structure PK where
  M1 : ℝ
  n : ℝ
  arr : ℝ
  ar : ℝ
  SINI : ℝ
  GAMMA : ℝ
  PBDOT : ℝ
  OMDOT : ℝ
  k : ℝ
  DR : ℝ
  er : ℝ
  DTH : ℝ
  eth : ℝ

/-- The `fe` property of `DDGRmodel` (Taylor & Weisberg 1989, Eqn. 19):
`(1 + (73/24) ecc² + (37/96) ecc⁴) (1 − ecc²)^(−7/2)`. -/
noncomputable def fe (s : DDGRState) : ℝ :=
  (1 + (73 / 24) * s.ecc ^ 2 + (37 / 96) * s.ecc ^ 4) *
    (1 - s.ecc ^ 2) ^ (-(7 : ℝ) / 2)

/-- The record of post-Keplerian quantities `_updatePK` computes, given
the `arr0` and `arr` returned by `_solve_kepler`.  Each field is a
direct transcription of the corresponding assignment in `_updatePK`;
`.decompose()`/`.to(u.s)` are the identity on SI magnitudes, and
`.to(u.deg / u.yr, equivalencies=u.dimensionless_angles())` multiplies
a 1/s magnitude by `(180/π) · 31557600` (degrees per radian times
seconds per Julian year). -/
noncomputable def mkPK (s : DDGRState) (arr0 arr : ℝ) : PK :=
  let M1 := s.MTOT - s.M2
  let n := 2 * Real.pi / s.PB
  let ar := arr * (s.M2 / s.MTOT)
  let dr := (Gconst / (cc ^ 2 * s.MTOT * arr)) *
    (3 * M1 ^ 2 + 6 * M1 * s.M2 + 2 * s.M2 ^ 2)
  let dth := (Gconst / (cc ^ 2 * s.MTOT * arr)) *
    (3.5 * M1 ^ 2 + 6 * M1 * s.M2 + 2 * s.M2 ^ 2)
  { M1 := M1
    n := n
    arr := arr
    ar := ar
    SINI := s.a1 / ar
    GAMMA := s.ecc * Gconst * s.M2 * (M1 + 2 * s.M2) /
      (n * cc ^ 2 * arr0 * s.MTOT)
    PBDOT := (-192 * Real.pi / (5 * cc ^ 5)) *
      (Gconst * n) ^ ((5 : ℝ) / 3) * M1 * s.M2 *
      s.MTOT ^ (-(1 : ℝ) / 3) * fe s
    OMDOT := (3 * n ^ ((5 : ℝ) / 3) * (1 / (1 - s.ecc ^ 2)) *
      (Gconst * (M1 + s.M2) / cc ^ 3) ^ ((2 : ℝ) / 3)) *
      (180 / Real.pi) * 31557600
    k := 3 * Gconst * s.MTOT / (cc ^ 2 * arr0 * (1 - s.ecc ^ 2))
    DR := dr
    er := s.ecc * (1 + dr)
    DTH := dth
    eth := s.ecc * (1 + dth) }

/-- Embedding of `DDGRmodel._updatePK`: compute `M1 = MTOT − M2` and
`n = 2π/PB`, call `_solve_kepler`, and store the derived post-Keplerian
quantities.  Returns `none` only when the fuel of the embedded `while`
loop runs out. -/
noncomputable def updatePK (s : DDGRState) (ARTOL : ℝ) (fuel : ℕ) :
    Option PK :=
  let M1 := s.MTOT - s.M2
  let n := 2 * Real.pi / s.PB
  let r := solve_kepler M1 s.M2 n ARTOL fuel
  r.2.map fun arr => mkPK s r.1 arr

/-- The closed form of the `_updatePK` result: since the
`_solve_kepler` loop makes no progress, `arr` is always one
`keplerF` step from `arr0`. -/
noncomputable def pkOf (s : DDGRState) : PK :=
  mkPK s (arr0v (s.MTOT - s.M2) s.M2 (2 * Real.pi / s.PB))
    (keplerF (s.MTOT - s.M2) s.M2
      (arr0v (s.MTOT - s.M2) s.M2 (2 * Real.pi / s.PB))
      (arr0v (s.MTOT - s.M2) s.M2 (2 * Real.pi / s.PB)))

/-- The function `_updatePK` always succeeds (with tolerance `≥ 0` and enough fuel)
and stores the closed-form one-step quantities `pkOf`. -/
lemma updatePK_eq (s : DDGRState) (ARTOL : ℝ) (h : 0 ≤ ARTOL)
    (fuel : ℕ) (hf : 2 ≤ fuel) :
    updatePK s ARTOL fuel = some (pkOf s) := by
  unfold updatePK
  simp only [solve_kepler_eq _ _ _ _ h _ hf]
  rfl

/-- Embedding of `DDGRmodel.d_SINI_d_A1`:
`(self.MTOT**2 * self._n**2 / c.G) ** (1.0 / 3) / self.M2`. -/
noncomputable def d_SINI_d_A1 (s : DDGRState) (pk : PK) : ℝ :=
  (s.MTOT ^ 2 * pk.n ^ 2 / Gconst) ^ ((1 : ℝ) / 3) / s.M2

/-- A `DDGRmodel` object after `_updatePK` has run: its parameter
attributes together with the stored post-Keplerian quantities. -/
structure DDGRModel where
  state : DDGRState
  pk : PK

/-- The `SINI` property getter: returns `self._SINI`. -/
def DDGRModel.SINI (m : DDGRModel) : ℝ := m.pk.SINI

/-- The `PBDOT` property getter: returns `self._PBDOT`. -/
def DDGRModel.PBDOT (m : DDGRModel) : ℝ := m.pk.PBDOT

/-- The `OMDOT` property getter: the source returns `self.XOMDOT`
("don't need an explicit OMDOT here since the main precession is
carried in the k term"). -/
def DDGRModel.OMDOT (m : DDGRModel) : ℝ := m.state.XOMDOT

/-- The `GAMMA` property getter: returns `self._GAMMA`. -/
def DDGRModel.GAMMA (m : DDGRModel) : ℝ := m.pk.GAMMA

/-- The `DR` property getter: returns `self._DR`. -/
def DDGRModel.DR (m : DDGRModel) : ℝ := m.pk.DR

/-- The `DTH` property getter: returns `self._DTH`. -/
def DDGRModel.DTH (m : DDGRModel) : ℝ := m.pk.DTH

/-- The `SINI` property setter: its body is a single `log.debug`
call ("SINI will not be used"), so the model is returned unchanged. -/
def DDGRModel.setSINI (m : DDGRModel) (_val : ℝ) : DDGRModel := m

/-- The `PBDOT` property setter: only logs, leaves the model
unchanged. -/
def DDGRModel.setPBDOT (m : DDGRModel) (_val : ℝ) : DDGRModel := m

/-- The `OMDOT` property setter: only logs, leaves the model
unchanged. -/
def DDGRModel.setOMDOT (m : DDGRModel) (_val : ℝ) : DDGRModel := m

/-- The `GAMMA` property setter: only logs, leaves the model
unchanged. -/
def DDGRModel.setGAMMA (m : DDGRModel) (_val : ℝ) : DDGRModel := m

/-- The `DR` property setter: only logs, leaves the model
unchanged. -/
def DDGRModel.setDR (m : DDGRModel) (_val : ℝ) : DDGRModel := m

/-- The `DTH` property setter: only logs, leaves the model
unchanged. -/
def DDGRModel.setDTH (m : DDGRModel) (_val : ℝ) : DDGRModel := m

/-! ## `gridutils.py`: serial and multiprocessing chi-squared grids

The fitter's `fit_toas` method is defined outside the given sources;
following the spec ("multiprocessing grid search is a thin parallel map
over independent fits") it is modelled from the spec as an arbitrary
deterministic pure function `fit : TimingModel → ℝ` of the fitter's
model.  `copy.deepcopy` is the identity under Lean's value semantics,
and `pathos`'s `pool.map` of a pure function is `List.map`.  The
functions are embedded for the two-parameter grids the claims are
about (`parnames = [par1, par2]`, `parvalues = [xs, ys]`), and return
the final state of the caller's fitter alongside the chi-squared grid
so that mutation of the caller's object can be stated. -/

/-- A fittable parameter attribute of a timing model: its `frozen`
flag and its `quantity` value. -/
structure FitParam where
  frozen : Bool
  quantity : ℝ

/-- A timing model, as the grid utilities see it: a map from parameter
name to the parameter attribute. -/
def TimingModel : Type := String → FitParam

/-- Embedding of `getattr(model, name).frozen = True`. -/
def freezePar (m : TimingModel) (name : String) : TimingModel :=
  fun p => if p = name then { m p with frozen := true } else m p

/-- Embedding of `getattr(model, name).quantity = q`. -/
def setQuantity (m : TimingModel) (name : String) (q : ℝ) : TimingModel :=
  fun p => if p = name then { m p with quantity := q } else m p

/-- A fitter: holds a timing model (`ftr.model`). -/
structure Fitter where
  model : TimingModel

/-- Embedding of `_grid_doonefit(ftr, parnames, parvalues)`: deep-copy
the fitter, then for each `(parname, parvalue)` pair freeze the
parameter and set its value, and fit. -/
def grid_doonefit (fit : TimingModel → ℝ) (ftr : Fitter)
    (parnames : List String) (parvalues : List ℝ) : ℝ :=
  let myftr := ftr
  fit ((parnames.zip parvalues).foldl
    (fun m nv => setQuantity (freezePar m nv.1) nv.1 nv.2) myftr.model)

/-- Embedding of `np.meshgrid(xs, ys)`: returns `(out0, out1)` of shape
`(len ys, len xs)` with `out0[j][i] = xs[i]` and `out1[j][i] = ys[j]`. -/
def meshgrid2 (xs ys : List ℝ) : List (List ℝ) × List (List ℝ) :=
  (ys.map fun _ => xs, ys.map fun y => xs.map fun _ => y)

/-- Reassemble a C-order flattened array of `rows * k` entries into a
2-D array of `rows` rows of `k` entries, as `np.nditer` with
`multi_index` fills `chi2`. -/
def chunksN (k : ℕ) : ℕ → List ℝ → List (List ℝ)
  | 0, _ => []
  | rows + 1, l => l.take k :: chunksN k rows (l.drop k)

/-- Embedding of `grid_chisq_mp(ftr, [p1, p2], [xs, ys])`: flatten the
meshgrid in C order, map `_grid_doonefit` over the grid points (the
parallel `pool.map` of a pure function), and place result `j` of the
map at the `j`-th position of the C-order iteration of the output
array.  The second component is the caller's fitter after the call
(the workers only ever touch deep copies). -/
def grid_chisq_mp (fit : TimingModel → ℝ) (ftr : Fitter)
    (p1 p2 : String) (xs ys : List ℝ) : List (List ℝ) × Fitter :=
  let out := meshgrid2 xs ys
  let pts := out.1.flatten.zip out.2.flatten
  let results := pts.map fun xy =>
    grid_doonefit fit ftr [p1, p2] [xy.1, xy.2]
  (chunksN xs.length ys.length results, ftr)

/-- Embedding of `grid_chisq(ftr, [p1, p2], [xs, ys])` (serial): save
`ftr.model`, replace it by a deep copy, freeze both parameters once,
then iterate the meshgrid in C order setting the two quantities and
fitting — the model is threaded through the loop — and finally restore
the saved model on the fitter. -/
def grid_chisq (fit : TimingModel → ℝ) (ftr : Fitter)
    (p1 p2 : String) (xs ys : List ℝ) : List (List ℝ) × Fitter :=
  let savemod := ftr.model
  let gridmod := savemod
  let m0 := freezePar (freezePar gridmod p1) p2
  let out := meshgrid2 xs ys
  let pts := out.1.flatten.zip out.2.flatten
  let res := pts.foldl
    (fun st xy =>
      let m := setQuantity (setQuantity st.1 p1 xy.1) p2 xy.2
      (m, st.2 ++ [fit m]))
    (m0, ([] : List ℝ))
  (chunksN xs.length ys.length res.2, { ftr with model := savemod })

/-! ## `binary_ddk.py`: `BinaryDDK.alternative_solutions` -/

/-- Python's float modulo `a % b` (sign follows the divisor):
`a − b·⌊a/b⌋`.  numpy/astropy `%` on quantities has the same
semantics. -/
noncomputable def pymod (a b : ℝ) : ℝ := a - b * ⌊a / b⌋

/-- For a positive modulus, `pymod` lands in `[0, b)`. -/
lemma pymod_mem (a b : ℝ) (hb : 0 < b) :
    0 ≤ pymod a b ∧ pymod a b < b := by
  have h : pymod a b = b * Int.fract (a / b) := by
    unfold pymod Int.fract
    rw [mul_sub, mul_comm b (a / b), div_mul_cancel₀ a hb.ne']
  constructor
  · rw [h]
    exact mul_nonneg hb.le (Int.fract_nonneg _)
  · rw [h]
    calc b * Int.fract (a / b) < b * 1 :=
          (mul_lt_mul_left hb).mpr (Int.fract_lt_one _)
    _ = b := mul_one b

/-- Embedding of `BinaryDDK.alternative_solutions`.  All angles are in
degrees; `np.arctan2(PMLAT, PMLONG).to(u.deg)` is the argument of the
complex number `PMLONG + i·PMLAT` (radians, in `(−π, π]`) converted to
degrees. -/
noncomputable def alternative_solutions (KIN KOM PMLAT PMLONG : ℝ) :
    List (ℝ × ℝ) :=
  let x0 := KIN
  let y0 := KOM
  let KOM_zero := Complex.arg ⟨PMLONG, PMLAT⟩ * (180 / Real.pi)
  [(x0, y0),
   (x0, pymod (2 * KOM_zero - y0 - 180) 360),
   (pymod (180 - x0) 360, pymod (2 * KOM_zero - y0) 360),
   (pymod (180 - x0) 360, pymod (y0 + 180) 360)]

/-! ## The `d_*_d_par` dispatchers of `DDGRmodel`

The dispatchers `d_k_d_par`, `d_GAMMA_d_par` and `d_OMDOT_d_par` use
Python dynamic attribute lookup: `getattr(self, par)` (which raises
`AttributeError` when `par` is not an attribute — modelled as `none`),
and `getattr(self, f"d_k_d_{par}")` inside a `try` block whose
`except AttributeError` installs a fallback lambda.  The object's
attribute table and its table of bound `d_k_d_*` / `d_GAMMA_d_*`
methods are part of the object state (the class in the given source
defines `d_k_d_MTOT/M2/ECC/PB` and `d_GAMMA_d_ECC/MTOT/M2/PB`; base
classes outside the given sources may contribute more).  astropy units
are modelled as exponent maps over unit-symbol names. -/

/-- An astropy composite unit: exponents indexed by unit symbol. -/
def AUnit : Type := String → ℤ

/-- The dimensionless unit `u.Unit("")`. -/
def AUnit.one : AUnit := fun _ => 0

/-- Unit quotient. -/
def AUnit.div (a b : AUnit) : AUnit := fun sym => a sym - b sym

/-- The unit `u.s`. -/
def AUnit.second : AUnit := fun sym => if sym = "s" then 1 else 0

/-- The unit `u.deg / u.yr`. -/
def AUnit.degPerYr : AUnit := fun sym =>
  if sym = "deg" then 1 else if sym = "yr" then -1 else 0

/-- An astropy `Quantity` as the dispatchers produce it: per-TOA
values with a unit. -/
structure AQuantity where
  value : List ℝ
  unit : AUnit

/-- A `DDGRmodel` object as the derivative dispatchers see it: the
TOA array `tt0`, the parameter attributes with their units, and the
tables of bound `d_k_d_*` and `d_GAMMA_d_*` methods (modelled by their
return values; `none` means the attribute lookup raises
`AttributeError`). -/
structure DDGRDispatch where
  tt0 : List ℝ
  attrUnit : List (String × AUnit)
  kDeriv : String → Option AQuantity
  gammaDeriv : String → Option AQuantity

/-- Embedding of `DDGRmodel.d_k_d_par(par)`: look up `par_obj`
(raising if absent), try the specific method `d_k_d_{par}`, and on
`AttributeError` return `np.zeros(len(self.tt0)) * u.Unit("") /
par_obj.unit`. -/
def d_k_d_par (s : DDGRDispatch) (par : String) : Option AQuantity :=
  match List.lookup par s.attrUnit with
  | none => none
  | some parUnit =>
    match s.kDeriv par with
    | some q => some q
    | none =>
      some ⟨List.replicate s.tt0.length 0, AUnit.one.div parUnit⟩

/-- Embedding of `DDGRmodel.d_GAMMA_d_par(par)`: like `d_k_d_par` but
the fallback is `np.zeros(len(self.tt0)) * u.s / par_obj.unit`. -/
def d_GAMMA_d_par (s : DDGRDispatch) (par : String) :
    Option AQuantity :=
  match List.lookup par s.attrUnit with
  | none => none
  | some parUnit =>
    match s.gammaDeriv par with
    | some q => some q
    | none =>
      some ⟨List.replicate s.tt0.length 0, AUnit.second.div parUnit⟩

/-- Embedding of `DDGRmodel.d_OMDOT_d_par(par)`: unlike the other
dispatchers it returns the `lambda` itself without invoking it — a
thunk producing `np.ones(len(self.tt0)) * (u.deg/u.yr) / par_obj.unit`
when `par == "XOMDOT"` and the corresponding zeros array otherwise. -/
def d_OMDOT_d_par (s : DDGRDispatch) (par : String) :
    Option (Unit → AQuantity) :=
  match List.lookup par s.attrUnit with
  | none => none
  | some parUnit =>
    if par = "XOMDOT" then
      some fun _ =>
        ⟨List.replicate s.tt0.length 1, AUnit.degPerYr.div parUnit⟩
    else
      some fun _ =>
        ⟨List.replicate s.tt0.length 0, AUnit.degPerYr.div parUnit⟩

/-! ## Claim theorems -/

/-- The function `_solve_kepler` returns `arr0` as its first component, always. -/
lemma solve_kepler_fst (M1 M2 n ARTOL : ℝ) (fuel : ℕ) :
    (solve_kepler M1 M2 n ARTOL fuel).1 = arr0v M1 M2 n := rfl

/-- C3: for every positive `M1`, `M2`, `n` and every `ARTOL > 0` the
iteration loop in `_solve_kepler` terminates — the function returns
after finitely many loop iterations (at most one pass through the loop
body suffices, because the body assigns the new step to the dead local
`ar` and so makes `arr_old = arr`). -/
theorem solve_kepler_loop_terminates (M1 M2 n ARTOL : ℝ)
    (hM1 : 0 < M1) (hM2 : 0 < M2) (hn : 0 < n) (hA : 0 < ARTOL)
    (fuel : ℕ) (hf : 2 ≤ fuel) :
    ((solve_kepler M1 M2 n ARTOL fuel).2).isSome := by
  rw [solve_kepler_eq M1 M2 n ARTOL hA.le fuel hf]
  rfl

/-- Witness for `solve_kepler_loop_terminates` at
`M1 = M2 = n = ARTOL = 1`. -/
theorem solve_kepler_loop_terminates_witness :
    (0 : ℝ) < 1 ∧ ((solve_kepler 1 1 1 1 2).2).isSome :=
  ⟨one_pos,
    solve_kepler_loop_terminates 1 1 1 1 one_pos one_pos one_pos
      one_pos 2 (le_refl 2)⟩

/-- C2: after `_updatePK` runs, the derived post-Keplerian quantities
equal the closed-form Taylor & Weisberg (1989) expressions in terms of
`M1 = MTOT − M2`, `n = 2π/PB`, `e = ECC` and the semi-major axes
`arr0` and `arr` returned by `_solve_kepler`:
`SINI = a1/(arr·M2/MTOT)`;
`GAMMA = e·G·M2·(M1+2M2)/(n·c²·arr0·MTOT)`;
`PBDOT = (−192π/(5c⁵))·(G·n)^(5/3)·M1·M2·MTOT^(−1/3)·fe` with
`fe = (1+(73/24)e²+(37/96)e⁴)·(1−e²)^(−7/2)`; and
`k = 3·G·MTOT/(c²·arr0·(1−e²))`.  The hypothesis `s.ecc = s.ECC`
identifies the base-class per-TOA `ecc()` value with the parameter
`ECC` (it holds when `EDOT = 0`). -/
theorem updatePK_matches_taylor_weisberg (s : DDGRState) (ARTOL : ℝ)
    (hA : 0 ≤ ARTOL) (hecc : s.ecc = s.ECC) :
    ∃ pk, updatePK s ARTOL 2 = some pk ∧
      pk.SINI = s.a1 / (pk.arr * s.M2 / s.MTOT) ∧
      pk.GAMMA = s.ECC * Gconst * s.M2 * ((s.MTOT - s.M2) + 2 * s.M2) /
        ((2 * Real.pi / s.PB) * cc ^ 2 *
          (solve_kepler (s.MTOT - s.M2) s.M2 (2 * Real.pi / s.PB)
            ARTOL 2).1 * s.MTOT) ∧
      pk.PBDOT = (-192 * Real.pi / (5 * cc ^ 5)) *
        (Gconst * (2 * Real.pi / s.PB)) ^ ((5 : ℝ) / 3) *
        (s.MTOT - s.M2) * s.M2 * s.MTOT ^ (-(1 : ℝ) / 3) *
        ((1 + (73 / 24) * s.ECC ^ 2 + (37 / 96) * s.ECC ^ 4) *
          (1 - s.ECC ^ 2) ^ (-(7 : ℝ) / 2)) ∧
      pk.k = 3 * Gconst * s.MTOT /
        (cc ^ 2 *
          (solve_kepler (s.MTOT - s.M2) s.M2 (2 * Real.pi / s.PB)
            ARTOL 2).1 * (1 - s.ECC ^ 2)) := by
  refine ⟨pkOf s, updatePK_eq s ARTOL hA 2 (le_refl 2), ?_, ?_, ?_, ?_⟩
  · simp only [pkOf, mkPK]
    ring
  · simp only [pkOf, mkPK, solve_kepler_fst, hecc]
  · simp only [pkOf, mkPK, fe, solve_kepler_fst, hecc]
  · simp only [pkOf, mkPK, solve_kepler_fst, hecc]

/-- Witness for `updatePK_matches_taylor_weisberg` at a concrete state
with `ecc = ECC`. -/
theorem updatePK_matches_taylor_weisberg_witness :
    (DDGRState.mk 1 0 1 2 1 0 0 1).ecc =
      (DDGRState.mk 1 0 1 2 1 0 0 1).ECC ∧
    ∃ pk, updatePK (DDGRState.mk 1 0 1 2 1 0 0 1) 1 2 = some pk ∧
      pk.SINI = (1 : ℝ) / (pk.arr * 1 / 2) ∧
      pk.GAMMA = 0 * Gconst * 1 * ((2 - 1) + 2 * 1) /
        ((2 * Real.pi / 1) * cc ^ 2 *
          (solve_kepler (2 - 1) 1 (2 * Real.pi / 1) 1 2).1 * 2) ∧
      pk.PBDOT = (-192 * Real.pi / (5 * cc ^ 5)) *
        (Gconst * (2 * Real.pi / 1)) ^ ((5 : ℝ) / 3) *
        (2 - 1) * 1 * (2 : ℝ) ^ (-(1 : ℝ) / 3) *
        ((1 + (73 / 24) * (0 : ℝ) ^ 2 + (37 / 96) * (0 : ℝ) ^ 4) *
          (1 - (0 : ℝ) ^ 2) ^ (-(7 : ℝ) / 2)) ∧
      pk.k = 3 * Gconst * 2 /
        (cc ^ 2 * (solve_kepler (2 - 1) 1 (2 * Real.pi / 1) 1 2).1 *
          (1 - (0 : ℝ) ^ 2)) :=
  ⟨rfl, updatePK_matches_taylor_weisberg
    (DDGRState.mk 1 0 1 2 1 0 0 1) 1 zero_le_one rfl⟩

/-- C7: for every parameter `par` that is an attribute of the model
but for which no dedicated derivative method `d_k_d_{par}`
(resp. `d_GAMMA_d_{par}`) exists, the dispatcher returns — without
raising — a per-TOA array of zeros of length `len(tt0)` whose unit is
the dimensionless unit (resp. `u.s`) divided by the unit of `par`. -/
theorem deriv_dispatch_fallback_zeros (s : DDGRDispatch) (par : String)
    (pu : AUnit) (hattr : List.lookup par s.attrUnit = some pu)
    (hk : s.kDeriv par = none) (hg : s.gammaDeriv par = none) :
    d_k_d_par s par =
      some ⟨List.replicate s.tt0.length 0, AUnit.one.div pu⟩ ∧
    d_GAMMA_d_par s par =
      some ⟨List.replicate s.tt0.length 0, AUnit.second.div pu⟩ := by
  unfold d_k_d_par d_GAMMA_d_par
  rw [hattr, hk, hg]
  exact ⟨rfl, rfl⟩

/-- Witness for `deriv_dispatch_fallback_zeros`: a model whose only
attribute is `XPBDOT`, with no specific `d_k_d_XPBDOT` or
`d_GAMMA_d_XPBDOT` method. -/
theorem deriv_dispatch_fallback_zeros_witness :
    d_k_d_par
        ⟨[0], [("XPBDOT", AUnit.one)], fun _ => none, fun _ => none⟩
        "XPBDOT" =
      some ⟨List.replicate 1 0, AUnit.one.div AUnit.one⟩ ∧
    d_GAMMA_d_par
        ⟨[0], [("XPBDOT", AUnit.one)], fun _ => none, fun _ => none⟩
        "XPBDOT" =
      some ⟨List.replicate 1 0, AUnit.second.div AUnit.one⟩ :=
  deriv_dispatch_fallback_zeros _ "XPBDOT" AUnit.one rfl rfl rfl

/-- C9: for every attribute parameter `par`, `d_OMDOT_d_par(par)`
returns a zero-argument callable (not an array, unlike the other
`d_*_d_par` dispatchers — the embedding's return type is a thunk);
invoking the callable produces an array of ones of length `len(tt0)`
when `par == "XOMDOT"` and an array of zeros of that length otherwise,
with unit `(u.deg/u.yr)` divided by the unit of `par`. -/
theorem d_OMDOT_d_par_returns_thunk (s : DDGRDispatch) (par : String)
    (pu : AUnit) (hattr : List.lookup par s.attrUnit = some pu) :
    ∃ f, d_OMDOT_d_par s par = some f ∧
      f () = ⟨List.replicate s.tt0.length
          (if par = "XOMDOT" then 1 else 0),
        AUnit.degPerYr.div pu⟩ := by
  by_cases h : par = "XOMDOT"
  · subst h
    refine ⟨fun _ =>
      ⟨List.replicate s.tt0.length 1, AUnit.degPerYr.div pu⟩, ?_, ?_⟩
    · simp [d_OMDOT_d_par, hattr]
    · simp
  · refine ⟨fun _ =>
      ⟨List.replicate s.tt0.length 0, AUnit.degPerYr.div pu⟩, ?_, ?_⟩
    · simp [d_OMDOT_d_par, hattr, h]
    · simp [h]

/-- Witness for `d_OMDOT_d_par_returns_thunk` at `par = "XOMDOT"`. -/
theorem d_OMDOT_d_par_returns_thunk_witness :
    ∃ f, d_OMDOT_d_par
        ⟨[0], [("XOMDOT", AUnit.degPerYr)], fun _ => none,
          fun _ => none⟩ "XOMDOT" = some f ∧
      f () = ⟨List.replicate 1 (if "XOMDOT" = "XOMDOT" then 1 else 0),
        AUnit.degPerYr.div AUnit.degPerYr⟩ :=
  d_OMDOT_d_par_returns_thunk _ "XOMDOT" AUnit.degPerYr rfl

/-- A concrete `DDGRmodel` state: `PB = 1 s`, `ECC = 0`, `M2 = 1 kg`,
`MTOT = 2 kg`, `A1 = 1 m`, `XOMDOT = −1 deg/yr`, with per-TOA
`ecc() = 0` and `a1() = 1`. -/
def cexOmdotState : DDGRState :=
  ⟨1, 0, 1, 2, 1, -1, 0, 1⟩

/-- The model obtained from `cexOmdotState` after `_updatePK`. -/
noncomputable def cexOmdotModel : DDGRModel :=
  ⟨cexOmdotState, pkOf cexOmdotState⟩

/-- C8 (counterexample): on a model whose post-Keplerian quantities
have been computed by `_updatePK`, assigning `OMDOT` and then reading
it back does not return the GR-derived periastron-advance rate
`_OMDOT`: the `OMDOT` property getter returns the `XOMDOT` excess
parameter (here `−1`), while the GR-derived `_OMDOT` stored by
`_updatePK` is strictly positive. -/
theorem omdot_read_not_gr_derived_cex :
    updatePK cexOmdotModel.state (1 / 10 ^ 10) 2 =
      some cexOmdotModel.pk ∧
    (cexOmdotModel.setOMDOT 7).OMDOT ≠ cexOmdotModel.pk.OMDOT := by
  constructor
  · exact updatePK_eq _ _ (by norm_num) 2 (le_refl 2)
  · have hread : (cexOmdotModel.setOMDOT 7).OMDOT = -1 := rfl
    have hpos : 0 < cexOmdotModel.pk.OMDOT := by
      show 0 < (pkOf cexOmdotState).OMDOT
      simp only [pkOf, mkPK, cexOmdotState, Gconst, cc]
      norm_num
      positivity
    rw [hread]
    exact ne_of_lt (by linarith)

/-- C8 (amended): assigning any of `SINI`, `PBDOT`, `OMDOT`, `GAMMA`,
`DR`, `DTH` on a `DDGRmodel` is a no-op on the model state (the setter
bodies only log), and a subsequent read of the corresponding property
returns the value `_updatePK` derived from GR — except `OMDOT`, whose
getter returns the `XOMDOT` excess parameter (the GR precession being
carried in the `k` term) — and never the assigned value. -/
theorem ddgr_ignored_setters_noop (m : DDGRModel) (v : ℝ)
    (ARTOL : ℝ) (fuel : ℕ) (hA : 0 ≤ ARTOL) (hf : 2 ≤ fuel)
    (hpk : updatePK m.state ARTOL fuel = some m.pk) :
    m.setSINI v = m ∧ m.setPBDOT v = m ∧ m.setOMDOT v = m ∧
    m.setGAMMA v = m ∧ m.setDR v = m ∧ m.setDTH v = m ∧
    (m.setSINI v).SINI = (pkOf m.state).SINI ∧
    (m.setPBDOT v).PBDOT = (pkOf m.state).PBDOT ∧
    (m.setGAMMA v).GAMMA = (pkOf m.state).GAMMA ∧
    (m.setDR v).DR = (pkOf m.state).DR ∧
    (m.setDTH v).DTH = (pkOf m.state).DTH ∧
    (m.setOMDOT v).OMDOT = m.state.XOMDOT := by
  have hp : m.pk = pkOf m.state := by
    have h2 := updatePK_eq m.state ARTOL hA fuel hf
    rw [hpk] at h2
    exact Option.some.inj h2
  refine ⟨rfl, rfl, rfl, rfl, rfl, rfl, ?_, ?_, ?_, ?_, ?_, rfl⟩ <;>
    simp [DDGRModel.setSINI, DDGRModel.setPBDOT, DDGRModel.setGAMMA,
      DDGRModel.setDR, DDGRModel.setDTH, DDGRModel.SINI,
      DDGRModel.PBDOT, DDGRModel.GAMMA, DDGRModel.DR, DDGRModel.DTH,
      hp]

/-- Witness for `ddgr_ignored_setters_noop` at the concrete model
`cexOmdotModel` with assigned value `7`. -/
theorem ddgr_ignored_setters_noop_witness :
    cexOmdotModel.setSINI 7 = cexOmdotModel ∧
    cexOmdotModel.setPBDOT 7 = cexOmdotModel ∧
    cexOmdotModel.setOMDOT 7 = cexOmdotModel ∧
    cexOmdotModel.setGAMMA 7 = cexOmdotModel ∧
    cexOmdotModel.setDR 7 = cexOmdotModel ∧
    cexOmdotModel.setDTH 7 = cexOmdotModel ∧
    (cexOmdotModel.setSINI 7).SINI = (pkOf cexOmdotModel.state).SINI ∧
    (cexOmdotModel.setPBDOT 7).PBDOT =
      (pkOf cexOmdotModel.state).PBDOT ∧
    (cexOmdotModel.setGAMMA 7).GAMMA =
      (pkOf cexOmdotModel.state).GAMMA ∧
    (cexOmdotModel.setDR 7).DR = (pkOf cexOmdotModel.state).DR ∧
    (cexOmdotModel.setDTH 7).DTH = (pkOf cexOmdotModel.state).DTH ∧
    (cexOmdotModel.setOMDOT 7).OMDOT = cexOmdotModel.state.XOMDOT :=
  ddgr_ignored_setters_noop cexOmdotModel 7 1 2 zero_le_one
    (le_refl 2) (updatePK_eq _ _ zero_le_one 2 (le_refl 2))

/-- C10 (counterexample): `alternative_solutions` returns the current
`(KIN, KOM)` as its first pair without reducing it modulo 360°, so for
a model with `KIN = 400°` the first returned pair has a `KIN` value
outside `[0°, 360°)`, contradicting the claim that every value in
every returned pair lies in that interval. -/
theorem alternative_solutions_first_pair_unreduced_cex :
    ((alternative_solutions 400 10 1 1).headD (0, 0)) = (400, 10) ∧
    ¬ ((alternative_solutions 400 10 1 1).headD (0, 0)).1 < 360 := by
  constructor
  · rfl
  · intro h
    have h400 : ((alternative_solutions 400 10 1 1).headD
        (0, 0)).1 = 400 := rfl
    rw [h400] at h
    norm_num at h

/-- C10 (amended): for every DDK model with proper-motion parameters
set, `alternative_solutions` returns exactly four `(KIN, KOM)` pairs,
the first being the model's current `(KIN, KOM)`; the three computed
pairs are reduced modulo 360° into `[0°, 360°)`, and therefore if the
current `KIN` and `KOM` already lie in `[0°, 360°)` then every value
in every returned pair lies in `[0°, 360°)`. -/
theorem alternative_solutions_range (KIN KOM PMLAT PMLONG : ℝ)
    (hk0 : 0 ≤ KIN) (hk1 : KIN < 360) (ho0 : 0 ≤ KOM)
    (ho1 : KOM < 360) :
    (alternative_solutions KIN KOM PMLAT PMLONG).length = 4 ∧
    (alternative_solutions KIN KOM PMLAT PMLONG).headD (0, 0) =
      (KIN, KOM) ∧
    ∀ p ∈ alternative_solutions KIN KOM PMLAT PMLONG,
      0 ≤ p.1 ∧ p.1 < 360 ∧ 0 ≤ p.2 ∧ p.2 < 360 := by
  refine ⟨rfl, rfl, ?_⟩
  intro p hp
  have h360 : (0 : ℝ) < 360 := by norm_num
  simp only [alternative_solutions, List.mem_cons, List.not_mem_nil,
    or_false] at hp
  rcases hp with h | h | h | h <;> subst h <;>
    refine ⟨?_, ?_, ?_, ?_⟩ <;>
    first
      | exact hk0
      | exact hk1
      | exact ho0
      | exact ho1
      | exact (pymod_mem _ _ h360).1
      | exact (pymod_mem _ _ h360).2

/-- Witness for `alternative_solutions_range` at
`KIN = 10°, KOM = 20°, PMLAT = PMLONG = 1`. -/
theorem alternative_solutions_range_witness :
    (alternative_solutions 10 20 1 1).length = 4 ∧
    (alternative_solutions 10 20 1 1).headD (0, 0) = (10, 20) ∧
    ∀ p ∈ alternative_solutions 10 20 1 1,
      0 ≤ p.1 ∧ p.1 < 360 ∧ 0 ≤ p.2 ∧ p.2 < 360 :=
  alternative_solutions_range 10 20 1 1 (by norm_num) (by norm_num)
    (by norm_num) (by norm_num)

/-! ### Grid equivalence lemmas -/

/-- Zipping a list with a constant-mapped copy of itself pairs each
element with the constant. -/
lemma zip_const_map (xs : List ℝ) (y : ℝ) :
    xs.zip (xs.map fun _ => y) = xs.map fun x => (x, y) := by
  induction xs with
  | nil => rfl
  | cons a t ih => simp only [List.map_cons, List.zip_cons_cons, ih]

/-- The C-order flattened meshgrid, zipped, is the flattened list of
rows of grid points `(x, y)`. -/
lemma meshgrid_pts_eq (xs ys : List ℝ) :
    (meshgrid2 xs ys).1.flatten.zip (meshgrid2 xs ys).2.flatten =
      (ys.map fun y => xs.map fun x => (x, y)).flatten := by
  induction ys with
  | nil => rfl
  | cons y t ih =>
    simp only [meshgrid2, List.map_cons, List.flatten_cons] at ih ⊢
    rw [List.zip_append (by simp), ih, zip_const_map]

/-- The function `chunksN` recovers the rows of a flattened list of equal-length
rows. -/
lemma chunksN_flatten (k : ℕ) (ll : List (List ℝ))
    (h : ∀ r ∈ ll, r.length = k) :
    chunksN k ll.length ll.flatten = ll := by
  induction ll with
  | nil => rfl
  | cons r t ih =>
    have hr : r.length = k := h r (by simp)
    simp only [List.length_cons, List.flatten_cons, chunksN]
    rw [← hr, List.take_left, List.drop_left]
    rw [hr]
    rw [ih fun q hq => h q (by simp [hq])]

/-- Master placement lemma: mapping any function over the C-order
flattened grid points and re-chunking yields the nested row-major
array of per-point values. -/
lemma chunks_map_nested (xs ys : List ℝ) (f : ℝ × ℝ → ℝ) :
    chunksN xs.length ys.length
      (((meshgrid2 xs ys).1.flatten.zip
        (meshgrid2 xs ys).2.flatten).map f) =
      ys.map fun y => xs.map fun x => f (x, y) := by
  rw [meshgrid_pts_eq, List.map_flatten]
  have hlen : (ys.map fun y => (xs.map fun x => (x, y)).map f).length
      = ys.length := by simp
  have hrows : ((ys.map fun y => xs.map fun x => (x, y)).map
      (List.map f)) = ys.map fun y => xs.map fun x => f (x, y) := by
    rw [List.map_map]
    refine List.map_congr_left fun y _ => ?_
    simp [List.map_map, Function.comp]
  rw [hrows]
  have := chunksN_flatten xs.length
    (ys.map fun y => xs.map fun x => f (x, y)) (by simp)
  rwa [List.length_map] at this

/-- Pointwise form of `setQuantity`. -/
lemma setQuantity_apply (m : TimingModel) (name : String) (q : ℝ)
    (p : String) :
    setQuantity m name q p =
      if p = name then ⟨(m p).frozen, q⟩ else m p := rfl

/-- Pointwise form of `freezePar`. -/
lemma freezePar_apply (m : TimingModel) (name p : String) :
    freezePar m name p =
      if p = name then ⟨true, (m p).quantity⟩ else m p := rfl

/-- Setting a quantity does not change any `frozen` flag. -/
lemma setQuantity_frozen (m : TimingModel) (name : String) (q : ℝ)
    (p : String) : (setQuantity m name q p).frozen = (m p).frozen := by
  unfold setQuantity
  split <;> rfl

/-- The model fitted by `_grid_doonefit` at a grid point `(x, y)`:
freeze `p1` and `p2` and set their quantities. -/
def pointModel (m : TimingModel) (p1 p2 : String) (x y : ℝ) :
    TimingModel :=
  setQuantity (setQuantity (freezePar (freezePar m p1) p2) p1 x) p2 y

/-- The worker `_grid_doonefit` on `[p1, p2]`, `[x, y]` fits exactly
`pointModel` of the (deep-copied) fitter's model. -/
lemma grid_doonefit_eq (fit : TimingModel → ℝ) (ftr : Fitter)
    (p1 p2 : String) (x y : ℝ) :
    grid_doonefit fit ftr [p1, p2] [x, y] =
      fit (pointModel ftr.model p1 p2 x y) := by
  unfold grid_doonefit pointModel
  simp only [List.zip_cons_cons, List.zip_nil_right, List.zip_nil_left,
    List.foldl_cons, List.foldl_nil]
  congr 1
  funext q
  simp only [setQuantity_apply, freezePar_apply]
  by_cases h2 : q = p2
  · subst h2
    by_cases h1 : q = p1
    · subst h1
      simp
    · simp [h1]
  · by_cases h1 : q = p1
    · subst h1
      simp [h2]
    · simp [h1, h2]

/-- The invariant maintained by the serial grid loop on its threaded
model: `frozen` flags agree with the initially frozen model `m1`, and
parameters other than `p1`, `p2` are untouched. -/
def SerialInv (m1 m : TimingModel) (p1 p2 : String) : Prop :=
  (∀ q, (m q).frozen = (m1 q).frozen) ∧
  (∀ q, q ≠ p1 → q ≠ p2 → m q = m1 q)

lemma serialInv_refl (m1 : TimingModel) (p1 p2 : String) :
    SerialInv m1 m1 p1 p2 :=
  ⟨fun _ => rfl, fun _ _ _ => rfl⟩

lemma serialInv_step (m1 m : TimingModel) (p1 p2 : String) (x y : ℝ)
    (h : SerialInv m1 m p1 p2) :
    SerialInv m1 (setQuantity (setQuantity m p1 x) p2 y) p1 p2 := by
  constructor
  · intro q
    rw [setQuantity_frozen, setQuantity_frozen]
    exact h.1 q
  · intro q hq1 hq2
    unfold setQuantity
    simp only [if_neg hq2, if_neg hq1]
    exact h.2 q hq1 hq2

/-- Overwriting both gridded quantities erases the loop history: the
fitted model only depends on the initial frozen model and the current
grid point. -/
lemma overwrite_eq (m1 m : TimingModel) (p1 p2 : String) (x y : ℝ)
    (h : SerialInv m1 m p1 p2) :
    setQuantity (setQuantity m p1 x) p2 y =
      setQuantity (setQuantity m1 p1 x) p2 y := by
  funext q
  simp only [setQuantity_apply]
  by_cases h2 : q = p2
  · subst h2
    by_cases h1 : q = p1
    · subst h1
      simp [h.1 q]
    · simp [h1, h.1 q]
  · by_cases h1 : q = p1
    · subst h1
      simp [h2, h.1 q]
    · simp [h1, h2, h.2 q h1 h2]

/-- The serial loop's accumulated chi-squared values are the map of
the per-point fit over the grid points, independent of the threading
of the model through the loop. -/
lemma serial_foldl_eq (fit : TimingModel → ℝ) (m1 : TimingModel)
    (p1 p2 : String) (pts : List (ℝ × ℝ)) :
    ∀ m acc, SerialInv m1 m p1 p2 →
      (pts.foldl
        (fun st xy =>
          let m := setQuantity (setQuantity st.1 p1 xy.1) p2 xy.2
          (m, st.2 ++ [fit m]))
        (m, acc)).2 =
      acc ++ pts.map (fun xy =>
        fit (setQuantity (setQuantity m1 p1 xy.1) p2 xy.2)) := by
  induction pts with
  | nil => intro m acc _; simp
  | cons xy t ih =>
    intro m acc hinv
    simp only [List.foldl_cons, List.map_cons]
    rw [ih _ _ (serialInv_step m1 m p1 p2 xy.1 xy.2 hinv)]
    rw [overwrite_eq m1 m p1 p2 xy.1 xy.2 hinv]
    simp

/-- The multiprocessing grid in nested row-major normal form: entry
`(j, i)` is the one independent fit of (a deep copy of) the caller's
fitter at grid point `(xs[i], ys[j])`. -/
lemma grid_chisq_mp_nested (fit : TimingModel → ℝ) (ftr : Fitter)
    (p1 p2 : String) (xs ys : List ℝ) :
    (grid_chisq_mp fit ftr p1 p2 xs ys).1 =
      ys.map fun y => xs.map fun x =>
        grid_doonefit fit ftr [p1, p2] [x, y] := by
  unfold grid_chisq_mp
  exact chunks_map_nested xs ys fun xy =>
    grid_doonefit fit ftr [p1, p2] [xy.1, xy.2]

/-- The serial grid in the same nested normal form. -/
lemma grid_chisq_nested (fit : TimingModel → ℝ) (ftr : Fitter)
    (p1 p2 : String) (xs ys : List ℝ) :
    (grid_chisq fit ftr p1 p2 xs ys).1 =
      ys.map fun y => xs.map fun x =>
        grid_doonefit fit ftr [p1, p2] [x, y] := by
  unfold grid_chisq
  simp only []
  rw [serial_foldl_eq fit
    (freezePar (freezePar ftr.model p1) p2) p1 p2 _ _ _
    (serialInv_refl _ p1 p2)]
  rw [List.nil_append]
  rw [chunks_map_nested xs ys]
  refine List.map_congr_left fun y _ => List.map_congr_left fun x _ => ?_
  rw [grid_doonefit_eq]
  rfl

/-- C5: for every deterministic `fit_toas` (an arbitrary pure function
of the timing model) and every pair of parameter names and value
grids, the multiprocessing `grid_chisq_mp` returns exactly the same
2-D chi-squared array as the serial `grid_chisq`, with the same
(row, column) placement of each grid point. -/
theorem grid_chisq_mp_eq_grid_chisq (fit : TimingModel → ℝ)
    (ftr : Fitter) (p1 p2 : String) (xs ys : List ℝ) :
    (grid_chisq_mp fit ftr p1 p2 xs ys).1 =
      (grid_chisq fit ftr p1 p2 xs ys).1 := by
  rw [grid_chisq_mp_nested, grid_chisq_nested]

/-- C6: each grid-point fit is independent — entry `(j, i)` of the
`grid_chisq_mp` output is `_grid_doonefit` of (a deep copy of) the
original fitter at `(xs[i], ys[j])` alone, depending on no other grid
point and no evaluation order — the caller's fitter is unchanged after
`grid_chisq_mp`, and the serial `grid_chisq` restores `ftr.model` to
the original model before returning. -/
theorem grid_fits_independent_and_fitter_unchanged
    (fit : TimingModel → ℝ) (ftr : Fitter) (p1 p2 : String)
    (xs ys : List ℝ) :
    (grid_chisq_mp fit ftr p1 p2 xs ys).2 = ftr ∧
    (grid_chisq fit ftr p1 p2 xs ys).2 = ftr ∧
    (grid_chisq_mp fit ftr p1 p2 xs ys).1 =
      ys.map fun y => xs.map fun x =>
        grid_doonefit fit ftr [p1, p2] [x, y] :=
  ⟨rfl, rfl, grid_chisq_mp_nested fit ftr p1 p2 xs ys⟩

/-! ### A concrete input on which the `_solve_kepler` iteration is far
from converged

With `M1 = M2 = c²/(16G)` and `n = √(c²/8)` the non-relativistic axis
is `arr0 = 1` and one fixed-point step gives `arr = (29/64)^(2/3)`,
well away from the fixed point. -/

/-- The pulsar and companion mass of the concrete input (kg). -/
noncomputable def mInput : ℝ := cc ^ 2 / (16 * Gconst)

/-- The orbital angular frequency of the concrete input (1/s). -/
noncomputable def nInput : ℝ := Real.sqrt (cc ^ 2 / 8)

lemma mInput_pos : 0 < mInput :=
  div_pos (pow_pos cc_pos 2)
    (mul_pos (by norm_num : (0 : ℝ) < 16) Gconst_pos)

lemma nInput_pos : 0 < nInput :=
  Real.sqrt_pos.mpr (div_pos (pow_pos cc_pos 2) (by norm_num))

lemma nInput_sq : nInput ^ 2 = cc ^ 2 / 8 :=
  Real.sq_sqrt (le_of_lt (div_pos (pow_pos cc_pos 2) (by norm_num)))

lemma arr0_input : arr0v mInput mInput nInput = 1 := by
  unfold arr0v
  rw [nInput_sq]
  rw [show Gconst * (mInput + mInput) / (cc ^ 2 / 8) = 1 by
    unfold mInput
    have hG := Gconst_pos.ne'
    have hc := cc_pos.ne'
    field_simp
    ring]
  exact Real.one_rpow _

/-- The `arr` value `_solve_kepler` returns on the concrete input. -/
noncomputable def arrInput : ℝ := ((29 : ℝ) / 64) ^ ((2 : ℝ) / 3)

lemma keplerF_input_one : keplerF mInput mInput 1 1 = arrInput := by
  unfold keplerF arrInput
  rw [one_mul]
  congr 1
  unfold mInput
  have hG := Gconst_pos.ne'
  have hc := cc_pos.ne'
  field_simp
  ring

lemma arrInput_pos : 0 < arrInput :=
  Real.rpow_pos_of_pos (by norm_num) _

lemma arrInput_lt : arrInput < 3 / 4 := by
  have h1 : arrInput < ((29 : ℝ) / 64) ^ ((1 : ℝ) / 2) :=
    Real.rpow_lt_rpow_of_exponent_gt (by norm_num) (by norm_num)
      (by norm_num)
  have h2 : ((29 : ℝ) / 64) ^ ((1 : ℝ) / 2) =
      Real.sqrt ((29 : ℝ) / 64) := (Real.sqrt_eq_rpow _).symm
  have h3 : Real.sqrt ((29 : ℝ) / 64) < 3 / 4 :=
    (Real.sqrt_lt' (by norm_num)).mpr (by norm_num)
  rw [h2] at h1
  linarith

lemma arrInput_gt : 35 / 64 < arrInput := by
  by_contra hcon
  push_neg at hcon
  have h1 : arrInput ^ (3 : ℝ) ≤ ((35 : ℝ) / 64) ^ (3 : ℝ) :=
    Real.rpow_le_rpow arrInput_pos.le hcon (by norm_num)
  have h2 : arrInput ^ (3 : ℝ) = ((29 : ℝ) / 64) ^ (2 : ℝ) := by
    unfold arrInput
    rw [← Real.rpow_mul (by norm_num : (0 : ℝ) ≤ 29 / 64)]
    norm_num
  rw [h2] at h1
  rw [show ((2 : ℝ)) = ((2 : ℕ) : ℝ) by norm_num,
    show ((3 : ℝ)) = ((3 : ℕ) : ℝ) by norm_num,
    Real.rpow_natCast, Real.rpow_natCast] at h1
  norm_num at h1

lemma keplerF_input_arr :
    keplerF mInput mInput 1 arrInput =
      (1 - 35 / (64 * arrInput)) ^ ((2 : ℝ) / 3) := by
  unfold keplerF
  rw [one_mul]
  congr 1
  unfold mInput
  have hG := Gconst_pos.ne'
  have hc := cc_pos.ne'
  have ha := arrInput_pos.ne'
  field_simp
  ring

lemma keplerF_input_arr_le :
    keplerF mInput mInput 1 arrInput ≤ ((13 : ℝ) / 48) ^ ((2 : ℝ) / 3) := by
  rw [keplerF_input_arr]
  have h64 : (0 : ℝ) < 64 * arrInput := by
    have := arrInput_pos
    linarith
  apply Real.rpow_le_rpow
  · have h1 : 35 / (64 * arrInput) < 1 := by
      rw [div_lt_one h64]
      have := arrInput_gt
      linarith
    linarith
  · have h1 : (35 : ℝ) / 48 ≤ 35 / (64 * arrInput) := by
      rw [div_le_div_iff (by norm_num) h64]
      have := arrInput_lt
      nlinarith
    linarith
  · norm_num

lemma keplerF_input_arr_lt :
    keplerF mInput mInput 1 arrInput <
      (35 : ℝ) / 64 * (1 - 1 / 10 ^ 10) := by
  have h1 := keplerF_input_arr_le
  have h2 : ((13 : ℝ) / 48) ^ ((2 : ℝ) / 3) <
      ((13 : ℝ) / 48) ^ ((1 : ℝ) / 2) :=
    Real.rpow_lt_rpow_of_exponent_gt (by norm_num) (by norm_num)
      (by norm_num)
  have h3 : ((13 : ℝ) / 48) ^ ((1 : ℝ) / 2) =
      Real.sqrt ((13 : ℝ) / 48) := (Real.sqrt_eq_rpow _).symm
  have h4 : Real.sqrt ((13 : ℝ) / 48) <
      (35 : ℝ) / 64 * (1 - 1 / 10 ^ 10) :=
    (Real.sqrt_lt' (by norm_num)).mpr (by norm_num)
  rw [h3] at h2
  linarith

/-- C1: on a concrete positive input with `ARTOL = 1e-10` (the
default), `_solve_kepler` does return
`arr0 = (G(M1+M2)/n²)^(1/3)` — but the returned `arr` is NOT a
self-consistent solution of the relativistic Kepler equation: the
fractional residual `|(F(arr) − arr)/arr|` exceeds `ARTOL` (it is in
fact of order one), because the loop body assigns the new iterate to
the dead local `ar` instead of `arr`, so the "iteration" stops after a
single step. -/
theorem solve_kepler_residual_exceeds_tolerance :
    (solve_kepler mInput mInput nInput (1 / 10 ^ 10) 100).1 =
      (Gconst * (mInput + mInput) / nInput ^ 2) ^ ((1 : ℝ) / 3) ∧
    ∃ arr,
      (solve_kepler mInput mInput nInput (1 / 10 ^ 10) 100).2 =
        some arr ∧
      1 / 10 ^ 10 <
        |(keplerF mInput mInput
            (solve_kepler mInput mInput nInput (1 / 10 ^ 10) 100).1 arr
          - arr) / arr| := by
  have hsk := solve_kepler_eq mInput mInput nInput (1 / 10 ^ 10)
    (by norm_num) 100 (by norm_num)
  refine ⟨rfl, keplerF mInput mInput (arr0v mInput mInput nInput)
    (arr0v mInput mInput nInput), ?_, ?_⟩
  · rw [hsk]
  · have hfst :
        (solve_kepler mInput mInput nInput (1 / 10 ^ 10) 100).1 = 1 := by
      rw [solve_kepler_fst, arr0_input]
    rw [hfst, arr0_input, keplerF_input_one]
    have ha := arrInput_pos
    have hFa : keplerF mInput mInput 1 arrInput <
        arrInput * (1 - 1 / 10 ^ 10) := by
      have h1 := keplerF_input_arr_lt
      have h2 := arrInput_gt
      nlinarith
    have hFlt : keplerF mInput mInput 1 arrInput < arrInput := by
      nlinarith
    have habs :
        |(keplerF mInput mInput 1 arrInput - arrInput) / arrInput| =
          (arrInput - keplerF mInput mInput 1 arrInput) / arrInput := by
      rw [abs_of_neg (div_neg_of_neg_of_pos (by linarith) ha)]
      ring
    rw [habs, lt_div_iff ha]
    nlinarith

/-! ### C4: `d_SINI_d_A1` uses the non-relativistic axis -/

lemma pkOf_n (s : DDGRState) : (pkOf s).n = 2 * Real.pi / s.PB := rfl

lemma pkOf_arr (s : DDGRState) :
    (pkOf s).arr =
      keplerF (s.MTOT - s.M2) s.M2
        (arr0v (s.MTOT - s.M2) s.M2 (2 * Real.pi / s.PB))
        (arr0v (s.MTOT - s.M2) s.M2 (2 * Real.pi / s.PB)) := rfl

/-- The `DDGRmodel` state of the C4 counterexample: the concrete
binary of `mInput`/`nInput` (`MTOT = c²/(8G)`, `M2 = MTOT/2`,
`PB = 2π/n`). -/
noncomputable def cexSiniState : DDGRState :=
  ⟨2 * Real.pi / nInput, 0, mInput, cc ^ 2 / (8 * Gconst), 1, 0, 0, 1⟩

lemma cexSini_n : 2 * Real.pi / cexSiniState.PB = nInput := by
  show 2 * Real.pi / (2 * Real.pi / nInput) = nInput
  have hpi : (2 : ℝ) * Real.pi ≠ 0 := by positivity
  field_simp

lemma cexSini_sub : cexSiniState.MTOT - cexSiniState.M2 = mInput := by
  show cc ^ 2 / (8 * Gconst) - mInput = mInput
  unfold mInput
  have hG := Gconst_pos.ne'
  field_simp
  ring

lemma cexSini_arr : (pkOf cexSiniState).arr = arrInput := by
  rw [pkOf_arr, cexSini_sub, cexSini_n]
  have h0 : arr0v mInput cexSiniState.M2 nInput = 1 := arr0_input
  rw [h0]
  exact keplerF_input_one

/-- C4 (counterexample): on the concrete state `cexSiniState` whose
post-Keplerian quantities have been computed by `_updatePK`,
`d_SINI_d_A1()` (which the source computes as
`(MTOT²n²/G)^(1/3)/M2 = MTOT/(arr0·M2)`) does NOT equal
`MTOT/(arr·M2)` with `arr` the relativistic semi-major axis: here the
former is `2` and the latter is `2/(29/64)^(2/3) > 2`. -/
theorem d_SINI_d_A1_uses_nonrel_axis_cex :
    updatePK cexSiniState (1 / 10 ^ 10) 2 = some (pkOf cexSiniState) ∧
    d_SINI_d_A1 cexSiniState (pkOf cexSiniState) ≠
      cexSiniState.MTOT /
        ((pkOf cexSiniState).arr * cexSiniState.M2) := by
  refine ⟨updatePK_eq _ _ (by norm_num) 2 (le_refl 2), ?_⟩
  have hG := Gconst_pos.ne'
  have hc := cc_pos.ne'
  have hL : d_SINI_d_A1 cexSiniState (pkOf cexSiniState) = 2 := by
    unfold d_SINI_d_A1
    rw [pkOf_n, cexSini_n]
    have key : cexSiniState.MTOT ^ 2 * nInput ^ 2 / Gconst =
        (cc ^ 2 / (8 * Gconst)) ^ 3 := by
      show (cc ^ 2 / (8 * Gconst)) ^ 2 * nInput ^ 2 / Gconst = _
      rw [nInput_sq]
      field_simp
      ring
    rw [key]
    have hMpos : (0 : ℝ) < cc ^ 2 / (8 * Gconst) := by
      apply div_pos (pow_pos cc_pos 2)
      have := Gconst_pos
      linarith
    rw [← Real.rpow_natCast (cc ^ 2 / (8 * Gconst)) 3,
      ← Real.rpow_mul hMpos.le]
    norm_num
    show cc ^ 2 / (8 * Gconst) / cexSiniState.M2 = 2
    show cc ^ 2 / (8 * Gconst) / mInput = 2
    unfold mInput
    field_simp
    ring
  have hR : cexSiniState.MTOT /
      ((pkOf cexSiniState).arr * cexSiniState.M2) = 2 / arrInput := by
    rw [cexSini_arr]
    show cc ^ 2 / (8 * Gconst) / (arrInput * mInput) = 2 / arrInput
    unfold mInput
    have ha := arrInput_pos.ne'
    field_simp
    ring
  rw [hL, hR]
  intro h
  have hlt : arrInput < 1 :=
    Real.rpow_lt_one (by norm_num) (by norm_num) (by norm_num)
  have ha := arrInput_pos
  rw [eq_div_iff ha.ne'] at h
  nlinarith

/-- C4 (amended): on every state whose post-Keplerian quantities have
been computed by `_updatePK` (with positive `MTOT` and `PB`),
`d_SINI_d_A1()` equals `MTOT/(arr0·M2)` — the partial derivative of
`SINI = A1/(arr0·M2/MTOT)` with the NON-relativistic semi-major axis
`arr0` held fixed (the source formula `(MTOT²n²/G)^(1/3)/M2`
simplifies to this), not `MTOT/(arr·M2)` with the relativistic
`arr`. -/
theorem d_SINI_d_A1_eq_mtot_div_arr0 (s : DDGRState) (pk : PK)
    (ARTOL : ℝ) (fuel : ℕ) (hA : 0 ≤ ARTOL) (hf : 2 ≤ fuel)
    (hpk : updatePK s ARTOL fuel = some pk)
    (hM : 0 < s.MTOT) (hPB : 0 < s.PB) :
    d_SINI_d_A1 s pk =
      s.MTOT /
        (arr0v (s.MTOT - s.M2) s.M2 (2 * Real.pi / s.PB) * s.M2) := by
  have hp : pk = pkOf s := by
    have h2 := updatePK_eq s ARTOL hA fuel hf
    rw [hpk] at h2
    exact Option.some.inj h2
  subst hp
  have hn : 0 < 2 * Real.pi / s.PB := by
    apply div_pos _ hPB
    positivity
  unfold d_SINI_d_A1 arr0v
  rw [pkOf_n, show s.MTOT - s.M2 + s.M2 = s.MTOT by ring]
  have hA2 : (0 : ℝ) <
      s.MTOT ^ 2 * (2 * Real.pi / s.PB) ^ 2 / Gconst :=
    div_pos (mul_pos (pow_pos hM 2) (pow_pos hn 2)) Gconst_pos
  have hB : (0 : ℝ) < Gconst * s.MTOT / (2 * Real.pi / s.PB) ^ 2 :=
    div_pos (mul_pos Gconst_pos hM) (pow_pos hn 2)
  have hBne :
      (Gconst * s.MTOT / (2 * Real.pi / s.PB) ^ 2) ^ ((1 : ℝ) / 3) ≠ 0 :=
    (Real.rpow_pos_of_pos hB _).ne'
  have key :
      (s.MTOT ^ 2 * (2 * Real.pi / s.PB) ^ 2 / Gconst) ^ ((1 : ℝ) / 3) *
        (Gconst * s.MTOT / (2 * Real.pi / s.PB) ^ 2) ^ ((1 : ℝ) / 3) =
        s.MTOT := by
    rw [← Real.mul_rpow hA2.le hB.le]
    have hm : s.MTOT ^ 2 * (2 * Real.pi / s.PB) ^ 2 / Gconst *
        (Gconst * s.MTOT / (2 * Real.pi / s.PB) ^ 2) = s.MTOT ^ 3 := by
      have hGne := Gconst_pos.ne'
      have hnne := hn.ne'
      field_simp
      ring
    rw [hm, ← Real.rpow_natCast s.MTOT 3, ← Real.rpow_mul hM.le]
    norm_num
  have hA13 :
      (s.MTOT ^ 2 * (2 * Real.pi / s.PB) ^ 2 / Gconst) ^ ((1 : ℝ) / 3) =
        s.MTOT /
          (Gconst * s.MTOT / (2 * Real.pi / s.PB) ^ 2) ^ ((1 : ℝ) / 3) := by
    rw [eq_div_iff hBne]
    exact key
  rw [hA13, div_div]

/-- Witness for `d_SINI_d_A1_eq_mtot_div_arr0` at a concrete state. -/
theorem d_SINI_d_A1_eq_mtot_div_arr0_witness :
    updatePK (DDGRState.mk 1 0 1 2 1 0 0 1) 1 2 =
      some (pkOf (DDGRState.mk 1 0 1 2 1 0 0 1)) ∧
    (0 : ℝ) < 2 ∧ (0 : ℝ) < 1 ∧
    d_SINI_d_A1 (DDGRState.mk 1 0 1 2 1 0 0 1)
        (pkOf (DDGRState.mk 1 0 1 2 1 0 0 1)) =
      2 / (arr0v (2 - 1) 1 (2 * Real.pi / 1) * 1) :=
  ⟨updatePK_eq _ _ zero_le_one 2 (le_refl 2), two_pos, one_pos,
    d_SINI_d_A1_eq_mtot_div_arr0 _ _ 1 2 zero_le_one (le_refl 2)
      (updatePK_eq _ _ zero_le_one 2 (le_refl 2)) two_pos one_pos⟩

end PINT
